import Mathlib

/-!
Shallow embedding of the quiz-session core of the interview-helper bot:
the storage layer (src/storage/db.py) and the quiz state machine
(src/handlers/quiz.py).  SQLite tables are modelled as Lean lists of
records; SQL queries become list transformations; `ORDER BY RANDOM()` and
`random.randint` become explicit oracle parameters; the asynchronous
collaborators (AI grader, progress write) become explicit outcome values.
-/

namespace InterviewHelper

/-- Row of the topics table (src/storage/db.py, CREATE TABLE topics).
The INTEGER `active` flag (0/1) is modelled as Bool. -/
structure TopicRow where
  id : Nat
  title : String
  level : String
  active : Bool
deriving Repr, DecidableEq

/-- Row of the questions table (src/storage/db.py, CREATE TABLE questions),
already decoded the way pick_questions returns it: the JSON `options`
column becomes an optional list of strings. -/
structure Question where
  id : Nat
  topic_id : Nat
  qtype : String
  text : String
  options : Option (List String)
  correct_index : Option Int
  ideal_answer : Option String
  difficulty : String
deriving Repr, DecidableEq

/-- Row of the answers table (src/storage/db.py, CREATE TABLE answers).
The INTEGER `is_correct` column only ever receives 0, 1 or NULL
(log_answer callers pass int(bool) or None), so it is modelled as
Option Bool. -/
structure AnswerRow where
  session_id : Nat
  question_id : Nat
  user_text : Option String
  chosen_index : Option Int
  is_correct : Option Bool
  ai_score : Option Int
  ai_comment : Option String
deriving Repr, DecidableEq

/-- Row of the sessions table (src/storage/db.py, CREATE TABLE sessions),
restricted to the columns the core reads and writes. -/
structure SessionRow where
  id : Nat
  telegram_id : Nat
  topic_id : Nat
  mode : String
  total_questions : Nat
  idx : Nat
  correct_count : Nat
deriving Repr, DecidableEq

/-- The persistent store: the three tables the quiz core touches. -/
structure Db where
  topics : List TopicRow
  questions : List Question
  answers : List AnswerRow
deriving Repr, DecidableEq

/-- Stable insertion of an element into a list sorted by the Bool
comparator le (auxiliary for the ORDER BY clauses). -/
def insertSorted (le : α → α → Bool) (a : α) : List α → List α
  | [] => [a]
  | b :: bs => if le a b then a :: b :: bs else b :: insertSorted le a bs

/-- Stable insertion sort by the Bool comparator le (auxiliary for the
ORDER BY clauses). -/
def sortBy (le : α → α → Bool) : List α → List α
  | [] => []
  | a :: as => insertSorted le a (sortBy le as)

/-- Sort key used by db.list_levels: `basic` first, then the rest, each
group sorted lexicographically (the Python key `(0 if lvl == 'basic'
else 1, lvl)`). -/
def levelSortLe (a b : String) : Bool :=
  decide ((if a = "basic" then 0 else 1) < (if b = "basic" then (0:Nat) else 1))
    || (decide ((if a = "basic" then (0:Nat) else 1) = (if b = "basic" then 0 else 1))
        && decide (a ≤ b))

/-- db.list_levels: SELECT DISTINCT level FROM topics WHERE active=1,
dropping falsy (empty) levels, returned sorted with `basic` first.  The
Python set is modelled by dedup. -/
def list_levels (topics : List TopicRow) : List String :=
  sortBy levelSortLe
    ((((topics.filter (fun t => t.active)).map (fun t => t.level)).filter
        (fun l => !(l == ""))).dedup)

/-- COUNT(*) FROM questions WHERE topic_id=? — db.count_questions, and
also the computed question_count column of db.list_topics. -/
def count_questions (questions : List Question) (topic_id : Nat) : Nat :=
  (questions.filter (fun q => q.topic_id == topic_id)).length

/-- One row of db.list_topics: topic columns plus the computed
question_count. -/
structure TopicInfo where
  id : Nat
  title : String
  level : String
  question_count : Nat
deriving Repr, DecidableEq

/-- db.list_topics: active topics (optionally filtered by level) with
their question_count, ORDER BY t.title. -/
def list_topics (db : Db) (level : Option String) : List TopicInfo :=
  sortBy (fun a b => decide (a.title ≤ b.title))
    ((db.topics.filter (fun t =>
        t.active && (match level with
                     | some l => t.level == l
                     | none => true))).map
      (fun t => ⟨t.id, t.title, t.level, count_questions db.questions t.id⟩))

/-- db.pick_questions with randomize=True: SELECT ... WHERE topic_id=?
ORDER BY RANDOM() LIMIT ?.  The random shuffle is modelled by an oracle
permutation `shuffle`; theorems assume it permutes its input. -/
def pick_questions (questions : List Question) (topic_id : Nat) (limit : Nat)
    (shuffle : List Question → List Question) : List Question :=
  (shuffle (questions.filter (fun q => q.topic_id == topic_id))).take limit

/-- db.start_session: INSERT INTO sessions(...) VALUES(?,?,?,?,0,0); the
AUTOINCREMENT row id is the parameter new_id. -/
def start_session (new_id telegram_id topic_id : Nat) (total : Nat)
    (mode : String) : SessionRow :=
  ⟨new_id, telegram_id, topic_id, mode, total, 0, 0⟩

/-- db.update_session_progress applied to one session row. -/
def update_session_progress (s : SessionRow) (idx correct_count : Nat) :
    SessionRow :=
  { s with idx := idx, correct_count := correct_count }

/-- db.log_answer: INSERT INTO answers(...) — appends a row. -/
def log_answer (db : Db) (row : AnswerRow) : Db :=
  { db with answers := db.answers ++ [row] }

/-- The WHERE predicate of db.answers_by_topic_stats:
is_correct = 0 OR (is_correct IS NULL AND (ai_score IS NULL OR ai_score < 3)). -/
def needs_review (a : AnswerRow) : Bool :=
  match a.is_correct with
  | some b => !b
  | none =>
    match a.ai_score with
    | none => true
    | some s => decide (s < 3)

/-- JOIN questions q ON q.id = a.question_id — ids are primary keys, so
the first match is the row. -/
def find_question (questions : List Question) (qid : Nat) : Option Question :=
  questions.find? (fun q => q.id == qid)

/-- JOIN topics t ON t.id = q.topic_id. -/
def find_topic (topics : List TopicRow) (tid : Nat) : Option TopicRow :=
  topics.find? (fun t => t.id == tid)

/-- The topic owning an answer's question (the two JOINs of
db.answers_by_topic_stats composed). -/
def answer_topic (db : Db) (a : AnswerRow) : Option TopicRow :=
  (find_question db.questions a.question_id).bind
    (fun q => find_topic db.topics q.topic_id)

/-- The joined rows of db.answers_by_topic_stats that survive the WHERE
clause: one topic row per needs-review answer of the session. -/
def review_topic_rows (db : Db) (session_id : Nat) : List TopicRow :=
  ((db.answers.filter (fun a => a.session_id == session_id && needs_review a)).filterMap
    (answer_topic db))

/-- GROUP BY t.id with SELECT t.title, t.level, COUNT(*): one output
entry per distinct topic id among the rows, counting its occurrences. -/
def group_counts : List TopicRow → List (String × String × Nat)
  | [] => []
  | t :: rest =>
    (t.title, t.level, ((t :: rest).filter (fun r => r.id == t.id)).length) ::
      group_counts (rest.filter (fun r => !(r.id == t.id)))
termination_by l => l.length
decreasing_by
  simp only [List.length_cons]
  exact Nat.lt_succ_of_le (List.length_filter_le _ _)

/-- ORDER BY COUNT(*) DESC comparator. -/
def countDescLe (a b : String × String × Nat) : Bool :=
  decide (b.2.2 ≤ a.2.2)

/-- db.answers_by_topic_stats: the session's needs-review answers joined
to their topics, grouped by topic id, counted, ordered by count
descending. -/
def answers_by_topic_stats (db : Db) (session_id : Nat) :
    List (String × String × Nat) :=
  sortBy countDescLe (group_counts (review_topic_rows db session_id))

/-- The count the aggregation reports for one topic, expressed directly
over the answers table: the session's needs-review answer rows whose
question belongs to the topic with id tid. -/
def review_answer_count (db : Db) (session_id tid : Nat) : Nat :=
  (db.answers.filter (fun a =>
      a.session_id == session_id && needs_review a
        && (((answer_topic db a).map (fun t => t.id == tid)).getD false))).length

/-! Quiz handler embedding (src/handlers/quiz.py). -/

/-- MIN_QUESTION_COUNT from src/handlers/quiz.py. -/
def MIN_QUESTION_COUNT : Nat := 7

/-- MAX_QUESTION_COUNT from src/handlers/quiz.py. -/
def MAX_QUESTION_COUNT : Nat := 10

/-- random.randint(a, b) modelled by a seed oracle r: for a ≤ b the
result ranges exactly over [a, b] as r ranges over Nat. -/
def randint (a b r : Nat) : Nat := a + r % (b + 1 - a)

/-- The label cmd_quiz shows for a level (the _LEVEL_LABELS lookup with
the title-cased fallback; for single-word levels Python str.title is
capitalisation). -/
def level_label (level : String) : String :=
  if level = "basic" then "🟢 Basic"
  else if level = "advanced" then "🔵 Advanced"
  else level.capitalize

/-- Sort key of _sort_levels in src/handlers/quiz.py: _LEVEL_ORDER maps
basic to 0 and advanced to 1, anything else to 99, ties broken
lexicographically. -/
def handlerLevelLe (a b : String) : Bool :=
  let rank : String → Nat := fun l =>
    if l = "basic" then 0 else if l = "advanced" then 1 else 99
  decide (rank a < rank b) || (decide (rank a = rank b) && decide (a ≤ b))

/-- _prepare_level_pairs from src/handlers/quiz.py. -/
def prepare_level_pairs (levels : List String) : List (String × String) :=
  (sortBy handlerLevelLe levels).map (fun level => (level, level_label level))

/-- What cmd_quiz leaves behind for the user: either no flow state at all
(no active topics — the user is pointed at the admin panel), or a flow
state in the choose_level stage showing the level keyboard. -/
inductive CmdQuizOutcome where
  | noLevels
  | chooseLevel (level_pairs : List (String × String))
deriving Repr, DecidableEq

/-- cmd_quiz from src/handlers/quiz.py: reset state, read list_levels;
if empty, pop the state and point at administrative setup, else stage
choose_level with the prepared level pairs. -/
def cmd_quiz (topics : List TopicRow) : CmdQuizOutcome :=
  let levels := list_levels topics
  if levels.isEmpty then .noLevels
  else .chooseLevel (prepare_level_pairs levels)

/-- The flow stage left for the user after cmd_quiz (none = the entry was
popped from _PENDING_SESSIONS). -/
def cmd_quiz_state (topics : List TopicRow) : Option String :=
  match cmd_quiz topics with
  | .noLevels => none
  | .chooseLevel _ => some "choose_level"

/-- A topic the spec calls eligible: active with question_count > 0
(what the choose_level handler filters on before offering topics). -/
def eligible_topic (db : Db) (t : TopicRow) : Prop :=
  t.active = true ∧ 0 < count_questions db.questions t.id

instance (db : Db) (t : TopicRow) : Decidable (eligible_topic db t) := by
  unfold eligible_topic
  infer_instance

/-- In-memory per-user flow state during the answering stage: the fields
of the _PENDING_SESSIONS entry the turn logic reads and writes. -/
structure FlowState where
  session_id : Nat
  questions : List Question
  idx : Nat
  correct : Nat
deriving Repr, DecidableEq

/-- The state choose_topic installs right after start_session. -/
def initial_flow_state (session_id : Nat) (questions : List Question) :
    FlowState :=
  ⟨session_id, questions, 0, 0⟩

/-- Outcome of selecting a topic in the choose_topic stage: either the
"no questions for this topic" notice with no session created, or a
created session row plus the materialized batch. -/
inductive StartOutcome where
  | noContent
  | started (session : SessionRow) (questions : List Question)
deriving Repr, DecidableEq

/-- The choose_topic branch of flow (src/handlers/quiz.py lines
322-363): count availability, bail out on zero, draw the target size
(randint modelled by the oracle r), fetch the batch, bail out if it came
back empty, else start_session with the batch length.  total_available
is topic["question_count"] or db.count_questions, both equal to
count_questions here. -/
def start_quiz_for_topic (db : Db) (user_id topic_id : Nat) (r : Nat)
    (shuffle : List Question → List Question) (new_session_id : Nat) :
    StartOutcome :=
  let total_available := count_questions db.questions topic_id
  if total_available ≤ 0 then .noContent
  else
    let upper_bound := min MAX_QUESTION_COUNT total_available
    let target_total :=
      if MIN_QUESTION_COUNT ≤ total_available then
        randint MIN_QUESTION_COUNT upper_bound r
      else total_available
    let questions := pick_questions db.questions topic_id target_total shuffle
    if questions.isEmpty then .noContent
    else .started (start_session new_session_id user_id topic_id
                    questions.length "mixed") questions

/-- advance_after_answer's effect on the flow state (src/handlers/quiz.py
lines 139-142): idx := idx + 1, correct := correct_count; the same pair
is then passed to update_session_progress. -/
def advance_after_answer (st : FlowState) (correct_count : Nat) : FlowState :=
  { st with idx := st.idx + 1, correct := correct_count }

/-- What advance_after_answer does next (lines 145-166): present the
question at the new cursor, or run the summary when the batch is
exhausted. -/
inductive NextStep where
  | question (q : Question) (number total : Nat)
  | summary (correct total : Nat)
deriving Repr, DecidableEq

/-- The continuation decision of advance_after_answer. -/
def next_step (st : FlowState) : NextStep :=
  if h : st.idx < st.questions.length then
    .question (st.questions.get ⟨st.idx, h⟩) (st.idx + 1) st.questions.length
  else
    .summary st.correct st.questions.length

/-- _handle_mcq_answer (src/handlers/quiz.py lines 87-131) without the
rendering: none when the choice index is out of range for the options
(processed = False, nothing logged), otherwise the logged answer row and
the gained flag int(correct_index is not None and choice == correct_index). -/
def handle_mcq_answer (st : FlowState) (q : Question) (choice_index : Int) :
    Option (AnswerRow × Bool) :=
  let options := q.options.getD []
  if choice_index < 0 ∨ (options.length : Int) ≤ choice_index then none
  else
    let is_correct : Bool :=
      match q.correct_index with
      | some ci => choice_index == ci
      | none => false
    some (⟨st.session_id, q.id, none, some choice_index, some is_correct,
           none, none⟩, is_correct)

/-- One full accepted-or-rejected choice turn: on processed = False the
state is untouched and nothing is written, otherwise the row is logged
and advance_after_answer runs with correct_count + gained. -/
def mcq_turn (st : FlowState) (q : Question) (choice_index : Int) :
    FlowState × List AnswerRow :=
  match handle_mcq_answer st q choice_index with
  | none => (st, [])
  | some (row, gained) =>
    (advance_after_answer st (st.correct + (if gained then 1 else 0)), [row])

/-- Result of the AI grading call as the open-question branch sees it:
a parsed score and comment, or any raised exception (remote error,
timeout, malformed JSON) collapsed into failure. -/
inductive GradeOutcome where
  | ok (score : Int) (comment : String)
  | failure
deriving Repr, DecidableEq

/-- The open-question branch of flow (src/handlers/quiz.py lines
389-425): on success log (score, comment) with is_correct NULL and count
the turn when score ≥ 4; on failure log the all-NULL ungraded row; both
branches then advance. -/
def open_turn (st : FlowState) (q : Question) (user_answer : String)
    (g : GradeOutcome) : FlowState × List AnswerRow :=
  match g with
  | .ok score comment =>
    let correct := if 4 ≤ score then st.correct + 1 else st.correct
    (advance_after_answer st correct,
      [⟨st.session_id, q.id, some user_answer, none, none, some score,
        some comment⟩])
  | .failure =>
    (advance_after_answer st st.correct,
      [⟨st.session_id, q.id, some user_answer, none, none, none, none⟩])

/-- handle_answer_callback (src/handlers/quiz.py lines 432-472) in the
answering stage: no-op when the batch is exhausted, when the button's
question id is not the current question's, or (inside mcq_turn) when the
option index is out of range. -/
def handle_answer_callback (st : FlowState) (question_id : Nat)
    (choice_index : Int) : FlowState × List AnswerRow :=
  if h : st.idx < st.questions.length then
    let q := st.questions.get ⟨st.idx, h⟩
    if q.id ≠ question_id then (st, [])
    else mcq_turn st q choice_index
  else (st, [])

/-- The text branch of flow in the answering stage (src/handlers/quiz.py
lines 366-429).  parsed_choice is int(text) - 1 when the text parses as
an integer (none on ValueError, a no-op re-prompt).  Unknown question
types advance without logging. -/
def flow_text_turn (st : FlowState) (parsed_choice : Option Int)
    (text : String) (g : GradeOutcome) : FlowState × List AnswerRow :=
  if _h : st.idx < st.questions.length then
    let q := st.questions.get ⟨st.idx, _h⟩
    if q.qtype == "mcq" then
      match parsed_choice with
      | none => (st, [])
      | some c => mcq_turn st q c
    else if q.qtype == "open" then
      open_turn st q text g
    else
      (advance_after_answer st st.correct, [])
  else (st, [])

/-- Any inbound event the answering stage can receive: a text message or
an inline-button callback. -/
inductive AnswerEvent where
  | text (parsed_choice : Option Int) (raw : String) (g : GradeOutcome)
  | callback (question_id : Nat) (choice_index : Int)

/-- One dispatch of an inbound event against the answering-stage flow
state. -/
def answering_step (st : FlowState) (ev : AnswerEvent) :
    FlowState × List AnswerRow :=
  match ev with
  | .text parsed raw g => flow_text_turn st parsed raw g
  | .callback qid c => handle_answer_callback st qid c

/-- The transition relation of the answering stage: some inbound event
takes st to st'. -/
def QuizStep (st st' : FlowState) : Prop :=
  ∃ ev, st' = (answering_step st ev).1

/-- advance_after_answer with the Session Store write made explicit
(src/handlers/quiz.py lines 139-143): the _PENDING_SESSIONS dict is
mutated first, then update_session_progress is awaited; if that write
fails, the exception propagates (raised = true) with nothing persisted,
while the mutated dict entry stays in place. -/
structure AdvanceIOResult where
  state : FlowState
  persisted : Option (Nat × Nat)
  raised : Bool
deriving Repr, DecidableEq

/-- Outcome of the awaited update_session_progress call. -/
inductive WriteOutcome where
  | ok
  | failed
deriving Repr, DecidableEq

/-- advance_after_answer including the progress write and its possible
failure. -/
def advance_after_answer_io (st : FlowState) (correct_count : Nat)
    (w : WriteOutcome) : AdvanceIOResult :=
  let st' := { st with idx := st.idx + 1, correct := correct_count }
  match w with
  | .ok => ⟨st', some (st'.idx, st'.correct), false⟩
  | .failed => ⟨st', none, true⟩

/-! Concrete fixtures used to exercise the definitions at specific
inputs. -/

/-- A two-option multiple-choice question of topic 1. -/
def sampleMcq : Question :=
  ⟨10, 1, "mcq", "2 + 2?", some ["3", "4"], some 1, none, "basic"⟩

/-- An open question of topic 1. -/
def sampleOpen : Question :=
  ⟨11, 1, "open", "Explain big-O.", none, none, some "growth bound", "basic"⟩

/-- An answering-stage flow state at the first of two questions. -/
def sampleState : FlowState := ⟨5, [sampleMcq, sampleOpen], 0, 0⟩

/-- An active topic that owns sampleMcq and sampleOpen. -/
def sampleTopic : TopicRow := ⟨1, "Arrays", "basic", true⟩

/-- A store with one active topic holding two questions, and a finished
session 5 with one wrong mcq answer and one ungraded open answer. -/
def sampleDb : Db :=
  ⟨[sampleTopic],
   [sampleMcq, sampleOpen],
   [⟨5, 10, none, some 0, some false, none, none⟩,
    ⟨5, 11, some "growth", none, none, none, none⟩]⟩

/-- A store whose only active topic has no questions at all. -/
def pendingTopicDb : Db := ⟨[⟨1, "Pending", "basic", true⟩], [], []⟩

/-! Auxiliary lemmas about the sorting and grouping combinators. -/

theorem mem_insertSorted (le : α → α → Bool) (a x : α) (l : List α) :
    x ∈ insertSorted le a l ↔ x = a ∨ x ∈ l := by
  induction l with
  | nil => simp [insertSorted]
  | cons b bs ih =>
    simp only [insertSorted]
    split
    · simp [List.mem_cons]
    · simp only [List.mem_cons, ih]
      tauto

theorem mem_sortBy (le : α → α → Bool) (x : α) (l : List α) :
    x ∈ sortBy le l ↔ x ∈ l := by
  induction l with
  | nil => simp [sortBy]
  | cons a as ih => simp [sortBy, mem_insertSorted, ih]

theorem length_insertSorted (le : α → α → Bool) (a : α) (l : List α) :
    (insertSorted le a l).length = l.length + 1 := by
  induction l with
  | nil => rfl
  | cons b bs ih =>
    simp only [insertSorted]
    split <;> simp [ih]

theorem length_sortBy (le : α → α → Bool) (l : List α) :
    (sortBy le l).length = l.length := by
  induction l with
  | nil => rfl
  | cons a as ih => simp [sortBy, length_insertSorted, ih]

theorem sortBy_eq_nil (le : α → α → Bool) (l : List α) :
    sortBy le l = [] ↔ l = [] := by
  constructor
  · intro h
    have := length_sortBy le l
    rw [h] at this
    exact List.length_eq_zero.mp this.symm
  · intro h
    rw [h]
    rfl

theorem pairwise_insertSorted (le : α → α → Bool)
    (htrans : ∀ a b c, le a b = true → le b c = true → le a c = true)
    (htot : ∀ a b, le a b = true ∨ le b a = true)
    (a : α) (l : List α) (h : l.Pairwise (fun x y => le x y = true)) :
    (insertSorted le a l).Pairwise (fun x y => le x y = true) := by
  induction l with
  | nil => simp [insertSorted]
  | cons b bs ih =>
    simp only [insertSorted]
    split
    · rename_i hab
      refine List.Pairwise.cons ?_ h
      intro y hy
      rcases List.mem_cons.mp hy with rfl | hy
      · exact hab
      · exact htrans a b y hab ((List.pairwise_cons.mp h).1 y hy)
    · rename_i hab
      have hba : le b a = true := (htot a b).resolve_left hab
      rcases List.pairwise_cons.mp h with ⟨hb, hbs⟩
      refine List.Pairwise.cons ?_ (ih hbs)
      intro y hy
      rcases (mem_insertSorted le a y bs).mp hy with rfl | hy
      · exact hba
      · exact hb y hy

theorem pairwise_sortBy (le : α → α → Bool)
    (htrans : ∀ a b c, le a b = true → le b c = true → le a c = true)
    (htot : ∀ a b, le a b = true ∨ le b a = true)
    (l : List α) : (sortBy le l).Pairwise (fun x y => le x y = true) := by
  induction l with
  | nil => simp [sortBy]
  | cons a as ih => exact pairwise_insertSorted le htrans htot a _ ih

theorem length_filter_filterMap {α β} (f : α → Option β) (p : β → Bool)
    (l : List α) :
    ((l.filterMap f).filter p).length
      = (l.filter (fun a => ((f a).map p).getD false)).length := by
  induction l with
  | nil => rfl
  | cons a l ih =>
    rw [List.filterMap_cons]
    cases hf : f a with
    | none => simpa [List.filter_cons, hf] using ih
    | some b =>
      cases hp : p b <;> simp [List.filter_cons, hf, hp, ih]

theorem filter_id_of_ne (l : List TopicRow) (tid tid' : Nat) (h : tid' ≠ tid) :
    (l.filter (fun r => !(r.id == tid))).filter (fun r => r.id == tid')
      = l.filter (fun r => r.id == tid') := by
  rw [List.filter_filter]
  apply List.filter_congr
  intro r _
  by_cases hr : r.id = tid'
  · simp [hr, h]
  · simp [hr]

theorem group_counts_sound (rows : List TopicRow) :
    ∀ e ∈ group_counts rows,
      ∃ t ∈ rows,
        e = (t.title, t.level,
             (rows.filter (fun r => r.id == t.id)).length) := by
  induction rows using group_counts.induct with
  | case1 => simp [group_counts]
  | case2 t rest ih =>
    intro e he
    rw [group_counts] at he
    rcases List.mem_cons.mp he with rfl | he
    · exact ⟨t, List.mem_cons_self t rest, rfl⟩
    · obtain ⟨t', ht', rfl⟩ := ih e he
      have hmem := List.mem_filter.mp ht'
      have hne : t'.id ≠ t.id := by
        have := hmem.2
        simp at this
        exact this
      refine ⟨t', List.mem_cons_of_mem t hmem.1, ?_⟩
      rw [filter_id_of_ne rest t.id t'.id hne]
      have : (t.id == t'.id) = false := by
        simp
        omega
      simp [List.filter_cons, this]

theorem group_counts_complete (rows : List TopicRow) :
    ∀ t ∈ rows, ∃ e ∈ group_counts rows,
      e.2.2 = (rows.filter (fun r => r.id == t.id)).length := by
  induction rows using group_counts.induct with
  | case1 => simp
  | case2 t0 rest ih =>
    intro t ht
    rw [group_counts]
    rcases List.mem_cons.mp ht with rfl | ht
    · exact ⟨_, List.mem_cons_self _ _, rfl⟩
    · by_cases hid : t.id = t0.id
      · refine ⟨_, List.mem_cons_self _ _, ?_⟩
        simp [hid]
      · obtain ⟨e, he, hcnt⟩ :=
          ih t (List.mem_filter.mpr ⟨ht, by simp [hid]⟩)
        refine ⟨e, List.mem_cons_of_mem _ he, ?_⟩
        rw [hcnt, filter_id_of_ne rest t0.id t.id hid]
        have : (t0.id == t.id) = false := by
          simp
          omega
        simp [List.filter_cons, this]

theorem group_counts_length_le_one (rows : List TopicRow) (tid : Nat)
    (h : ∀ t ∈ rows, t.id = tid) : (group_counts rows).length ≤ 1 := by
  cases rows with
  | nil => simp [group_counts]
  | cons t rest =>
    rw [group_counts]
    have hnil : rest.filter (fun r => !(r.id == t.id)) = [] := by
      rw [List.filter_eq_nil_iff]
      intro r hr
      have h1 := h r (List.mem_cons_of_mem _ hr)
      have h2 := h t (List.mem_cons_self _ _)
      simp [h1, h2]
    rw [hnil]
    simp [group_counts]

theorem review_count_eq (db : Db) (sid tid : Nat) :
    ((review_topic_rows db sid).filter (fun r => r.id == tid)).length
      = review_answer_count db sid tid := by
  unfold review_topic_rows review_answer_count
  rw [length_filter_filterMap, List.filter_filter]
  congr 1
  apply List.filter_congr
  intro a _
  rw [Bool.and_comm]

theorem randint_bounds (a b r : Nat) (h : a ≤ b) :
    a ≤ randint a b r ∧ randint a b r ≤ b := by
  unfold randint
  constructor
  · exact Nat.le_add_right a _
  · have hpos : 0 < b + 1 - a := by omega
    have := Nat.mod_lt r hpos
    omega

/-! Claim theorems. -/

/-- C3: when the AI grading call fails on an open-question turn, exactly
one answer row is written for the turn, with is_correct null and
ai_score null, the cursor advances by exactly 1, and the session
continues to the next question or to the summary. -/
theorem c3_grading_failure_turn (st : FlowState) (q : Question)
    (ans : String) :
    (open_turn st q ans .failure).2
        = [⟨st.session_id, q.id, some ans, none, none, none, none⟩] ∧
    (open_turn st q ans .failure).1.idx = st.idx + 1 ∧
    (open_turn st q ans .failure).1.correct = st.correct ∧
    ((∃ q' n tot, next_step (open_turn st q ans .failure).1
        = .question q' n tot) ∨
     (∃ c tot, next_step (open_turn st q ans .failure).1
        = .summary c tot)) := by
  refine ⟨rfl, rfl, rfl, ?_⟩
  unfold next_step
  split
  · exact Or.inl ⟨_, _, _, rfl⟩
  · exact Or.inr ⟨_, _, rfl⟩

/-- C8: when the AI grading call succeeds with score s, exactly one
answer row is written carrying ai_score = s and the comment with
is_correct null, and the running correct count increases by 1 for the
turn exactly when s ≥ 4. -/
theorem c8_grading_success_turn (st : FlowState) (q : Question)
    (ans : String) (score : Int) (comment : String) :
    (open_turn st q ans (.ok score comment)).2
        = [⟨st.session_id, q.id, some ans, none, none, some score,
            some comment⟩] ∧
    (open_turn st q ans (.ok score comment)).1.idx = st.idx + 1 ∧
    ((open_turn st q ans (.ok score comment)).1.correct = st.correct + 1
        ↔ 4 ≤ score) ∧
    (¬ 4 ≤ score →
        (open_turn st q ans (.ok score comment)).1.correct = st.correct) := by
  refine ⟨rfl, rfl, ?_, ?_⟩
  · unfold open_turn advance_after_answer
    by_cases h : (4:Int) ≤ score
    · simp [h]
    · simp only [h, if_false, iff_false]
      intro hc
      omega
  · intro h
    simp [open_turn, advance_after_answer, h]

/-- C7: an accepted (in-range) choice answer is persisted with
is_correct = (chosen_index = correct_index) when a correct index is
defined, and is_correct = false when it is undefined. -/
theorem c7_mcq_scoring (st : FlowState) (q : Question) (c : Int)
    (h0 : 0 ≤ c) (hlt : c < ((q.options.getD []).length : Int)) :
    ∃ row gained, handle_mcq_answer st q c = some (row, gained) ∧
      row.is_correct = some gained ∧
      row.chosen_index = some c ∧
      (∀ ci, q.correct_index = some ci → (gained = true ↔ c = ci)) ∧
      (q.correct_index = none → gained = false) := by
  unfold handle_mcq_answer
  rw [if_neg (by omega)]
  refine ⟨_, _, rfl, rfl, rfl, ?_, ?_⟩
  · intro ci hci
    simp [hci]
  · intro h
    simp [h]

/-- Witness for c7_mcq_scoring at a concrete in-range choice. -/
theorem c7_mcq_scoring_witness :
    ∃ row gained,
      handle_mcq_answer sampleState sampleMcq 1 = some (row, gained) ∧
      row.is_correct = some gained ∧
      row.chosen_index = some 1 ∧
      (∀ ci, sampleMcq.correct_index = some ci → (gained = true ↔ 1 = ci)) ∧
      (sampleMcq.correct_index = none → gained = false) :=
  c7_mcq_scoring sampleState sampleMcq 1 (by decide) (by decide)

/-- C4: a stale choice action (question id differing from the current
question's) or an out-of-range option index mutates nothing: the flow
state is returned unchanged and no answer row is logged, both on the
callback path and on the _handle_mcq_answer path itself. -/
theorem c4_stale_or_invalid_choice (st : FlowState) (qid : Nat) (c : Int)
    (q : Question) (hq : st.questions[st.idx]? = some q)
    (h : q.id ≠ qid ∨ c < 0 ∨ ((q.options.getD []).length : Int) ≤ c) :
    handle_answer_callback st qid c = (st, []) ∧
    ((c < 0 ∨ ((q.options.getD []).length : Int) ≤ c) →
        mcq_turn st q c = (st, [])) := by
  obtain ⟨hidx, hget⟩ := List.getElem?_eq_some.mp hq
  have hoor : (c < 0 ∨ ((q.options.getD []).length : Int) ≤ c) →
      mcq_turn st q c = (st, []) := by
    intro hr
    unfold mcq_turn handle_mcq_answer
    rw [if_pos hr]
  refine ⟨?_, hoor⟩
  unfold handle_answer_callback
  rw [dif_pos hidx]
  have hgq : st.questions.get ⟨st.idx, hidx⟩ = q := by
    simpa [List.get_eq_getElem] using hget
  rw [hgq]
  by_cases hne : q.id ≠ qid
  · rw [if_pos hne]
  · rw [if_neg hne]
    rcases h with hid | hr
    · exact absurd hid hne
    · exact hoor hr

/-- Witness for c4_stale_or_invalid_choice: a stale button press against
the current flow state is a no-op. -/
theorem c4_stale_or_invalid_choice_witness :
    handle_answer_callback sampleState 999 1 = (sampleState, []) ∧
    ((1:Int) < 0 ∨ ((sampleMcq.options.getD []).length : Int) ≤ 1 →
        mcq_turn sampleState sampleMcq 1 = (sampleState, [])) :=
  c4_stale_or_invalid_choice sampleState 999 1 sampleMcq (by decide)
    (Or.inl (by decide))

/-- C6 counterexample: at a concrete accepted turn whose progress write
fails, the in-memory flow state does advance — its cursor no longer
equals the last successfully persisted idx (0), refuting the claim that
state and persisted progress stay in lockstep on a failed write. -/
theorem c6_counterexample :
    ¬ ((advance_after_answer_io sampleState 0 .failed).state.idx
          = sampleState.idx ∧
       (advance_after_answer_io sampleState 0 .failed).state.correct
          = sampleState.correct) := by
  decide

/-- C6 amended: when the progress write fails, nothing is persisted and
the failure propagates as a hard failure, but the in-memory flow state
has already advanced — its cursor is one past the last persisted idx and
its correct count is the new value; only a successful write keeps state
and persisted progress in lockstep. -/
theorem c6_progress_write_failure (st : FlowState) (c : Nat) :
    (advance_after_answer_io st c .failed).persisted = none ∧
    (advance_after_answer_io st c .failed).raised = true ∧
    (advance_after_answer_io st c .failed).state.idx = st.idx + 1 ∧
    (advance_after_answer_io st c .failed).state.correct = c ∧
    (advance_after_answer_io st c .ok).persisted
        = some ((advance_after_answer_io st c .ok).state.idx,
                (advance_after_answer_io st c .ok).state.correct) :=
  ⟨rfl, rfl, rfl, rfl, rfl⟩

theorem mem_list_levels (topics : List TopicRow) (lvl : String) :
    lvl ∈ list_levels topics ↔
      (∃ t ∈ topics, t.active = true ∧ t.level = lvl) ∧ lvl ≠ "" := by
  unfold list_levels
  rw [mem_sortBy, List.mem_dedup, List.mem_filter, List.mem_map]
  constructor
  · rintro ⟨⟨t, htmem, rfl⟩, hne⟩
    have hf := List.mem_filter.mp htmem
    exact ⟨⟨t, hf.1, by simpa using hf.2, rfl⟩, by simpa using hne⟩
  · rintro ⟨⟨t, ht, hact, rfl⟩, hne⟩
    exact ⟨⟨t, List.mem_filter.mpr ⟨ht, by simp [hact]⟩, rfl⟩, by simpa using hne⟩

/-- C5 counterexample: with a single active topic that has zero
questions, the quiz-start action still establishes the choose_level
state although no level has any eligible topic (active with
question_count > 0), refuting the claim that choose_level is established
only when an eligible topic exists. -/
theorem c5_counterexample :
    cmd_quiz_state pendingTopicDb.topics = some "choose_level" ∧
    ∀ t ∈ pendingTopicDb.topics, ¬ eligible_topic pendingTopicDb t := by
  constructor
  · rfl
  · decide

/-- C5 amended: a quiz-start action establishes the choose_level state
exactly when at least one active topic (with a non-empty level) exists —
regardless of whether any topic has question_count > 0; otherwise no
flow state remains for the user and the caller is directed to
administrative setup. -/
theorem c5_quiz_start_state (topics : List TopicRow) :
    (cmd_quiz_state topics = some "choose_level"
        ↔ ∃ t ∈ topics, t.active = true ∧ t.level ≠ "") ∧
    (cmd_quiz_state topics = none
        ↔ ∀ t ∈ topics, ¬(t.active = true ∧ t.level ≠ "")) := by
  have hkey : (list_levels topics).isEmpty = true
      ↔ ∀ t ∈ topics, ¬(t.active = true ∧ t.level ≠ "") := by
    rw [List.isEmpty_iff]
    constructor
    · intro h t ht hc
      have hmem : t.level ∈ list_levels topics :=
        (mem_list_levels topics t.level).mpr ⟨⟨t, ht, hc.1, rfl⟩, hc.2⟩
      rw [h] at hmem
      exact absurd hmem (List.not_mem_nil _)
    · intro h
      by_contra hne
      obtain ⟨lvl, hlvl⟩ := List.exists_mem_of_ne_nil _ hne
      obtain ⟨⟨t, ht, hact, rfl⟩, hne2⟩ := (mem_list_levels topics lvl).mp hlvl
      exact h t ht ⟨hact, hne2⟩
  have hstate : cmd_quiz_state topics
      = if (list_levels topics).isEmpty then none else some "choose_level" := by
    unfold cmd_quiz_state cmd_quiz
    by_cases h : (list_levels topics).isEmpty <;> simp [h]
  rw [hstate]
  by_cases h : (list_levels topics).isEmpty
  · rw [if_pos h]
    constructor
    · constructor
      · intro hc
        cases hc
      · rintro ⟨t, ht, hact, hlv⟩
        exact absurd ⟨hact, hlv⟩ (hkey.mp h t ht)
    · exact ⟨fun _ => hkey.mp h, fun _ => rfl⟩
  · rw [if_neg h]
    have hex : ∃ t ∈ topics, t.active = true ∧ t.level ≠ "" := by
      by_contra hno
      exact h (hkey.mpr (fun t ht hc => hno ⟨t, ht, hc⟩))
    constructor
    · simp [hex]
    · constructor
      · intro hc
        cases hc
      · intro hall
        exact absurd (hkey.mpr hall) h

/-- C1: starting a session on a topic: with zero available questions no
session is created (the no-content notice is surfaced); with at least
one available question a session is created; and its total_questions
equals the available count when that count is below MIN_QUESTION_COUNT
(7), and otherwise lies in the interval from MIN_QUESTION_COUNT to
min MAX_QUESTION_COUNT available. -/
theorem c1_session_size (db : Db) (uid tid r sid : Nat)
    (shuffle : List Question → List Question)
    (hsh : ∀ l, (shuffle l).Perm l) :
    (count_questions db.questions tid = 0 →
        start_quiz_for_topic db uid tid r shuffle sid = .noContent) ∧
    (0 < count_questions db.questions tid →
        ∃ s qs, start_quiz_for_topic db uid tid r shuffle sid
            = .started s qs) ∧
    (∀ s qs, start_quiz_for_topic db uid tid r shuffle sid = .started s qs →
        (count_questions db.questions tid < MIN_QUESTION_COUNT →
            s.total_questions = count_questions db.questions tid) ∧
        (MIN_QUESTION_COUNT ≤ count_questions db.questions tid →
            MIN_QUESTION_COUNT ≤ s.total_questions ∧
            s.total_questions
              ≤ min MAX_QUESTION_COUNT (count_questions db.questions tid))) := by
  have hpick : ∀ n, (pick_questions db.questions tid n shuffle).length
      = min n (count_questions db.questions tid) := by
    intro n
    unfold pick_questions
    rw [List.length_take, (hsh _).length_eq]
    rfl
  have htarget : ∀ tt : Nat,
      tt = (if MIN_QUESTION_COUNT ≤ count_questions db.questions tid then
              randint MIN_QUESTION_COUNT
                (min MAX_QUESTION_COUNT (count_questions db.questions tid)) r
            else count_questions db.questions tid) →
      (count_questions db.questions tid < MIN_QUESTION_COUNT →
          tt = count_questions db.questions tid) ∧
      (MIN_QUESTION_COUNT ≤ count_questions db.questions tid →
          MIN_QUESTION_COUNT ≤ tt ∧
          tt ≤ min MAX_QUESTION_COUNT (count_questions db.questions tid)) := by
    intro tt htt
    constructor
    · intro hlt
      rw [htt, if_neg (by omega)]
    · intro hge
      have hminle : MIN_QUESTION_COUNT
          ≤ min MAX_QUESTION_COUNT (count_questions db.questions tid) := by
        unfold MIN_QUESTION_COUNT MAX_QUESTION_COUNT at *
        omega
      have hb := randint_bounds MIN_QUESTION_COUNT
        (min MAX_QUESTION_COUNT (count_questions db.questions tid)) r hminle
      rw [htt, if_pos hge]
      exact hb
  refine ⟨?_, ?_, ?_⟩
  · intro h0
    unfold start_quiz_for_topic
    rw [if_pos (by omega)]
  · intro hpos
    unfold start_quiz_for_topic
    rw [if_neg (by omega)]
    have hlen := hpick (if MIN_QUESTION_COUNT ≤ count_questions db.questions tid
        then randint MIN_QUESTION_COUNT
          (min MAX_QUESTION_COUNT (count_questions db.questions tid)) r
        else count_questions db.questions tid)
    have httpos : 0 < (if MIN_QUESTION_COUNT ≤ count_questions db.questions tid
        then randint MIN_QUESTION_COUNT
          (min MAX_QUESTION_COUNT (count_questions db.questions tid)) r
        else count_questions db.questions tid) := by
      by_cases hge : MIN_QUESTION_COUNT ≤ count_questions db.questions tid
      · rw [if_pos hge]
        have hminle : MIN_QUESTION_COUNT
            ≤ min MAX_QUESTION_COUNT (count_questions db.questions tid) := by
          unfold MIN_QUESTION_COUNT MAX_QUESTION_COUNT at *
          omega
        have hb := (randint_bounds _ _ r hminle).1
        unfold MIN_QUESTION_COUNT at hb ⊢
        omega
      · rw [if_neg hge]
        exact hpos
    have hne : ¬ ((pick_questions db.questions tid
        (if MIN_QUESTION_COUNT ≤ count_questions db.questions tid
         then randint MIN_QUESTION_COUNT
           (min MAX_QUESTION_COUNT (count_questions db.questions tid)) r
         else count_questions db.questions tid) shuffle).isEmpty = true) := by
      rw [List.isEmpty_iff]
      intro hnil
      rw [hnil] at hlen
      simp at hlen
      omega
    rw [if_neg hne]
    exact ⟨_, _, rfl⟩
  · intro s qs hstart
    unfold start_quiz_for_topic at hstart
    by_cases h0 : count_questions db.questions tid ≤ 0
    · rw [if_pos h0] at hstart
      cases hstart
    · rw [if_neg h0] at hstart
      by_cases hempty : (pick_questions db.questions tid
          (if MIN_QUESTION_COUNT ≤ count_questions db.questions tid
           then randint MIN_QUESTION_COUNT
             (min MAX_QUESTION_COUNT (count_questions db.questions tid)) r
           else count_questions db.questions tid) shuffle).isEmpty = true
      · rw [if_pos hempty] at hstart
        cases hstart
      · rw [if_neg hempty] at hstart
        injection hstart with hs hq
        have hst : s.total_questions = (pick_questions db.questions tid
            (if MIN_QUESTION_COUNT ≤ count_questions db.questions tid
             then randint MIN_QUESTION_COUNT
               (min MAX_QUESTION_COUNT (count_questions db.questions tid)) r
             else count_questions db.questions tid) shuffle).length := by
          rw [← hs]
          rfl
        rw [hpick] at hst
        rcases htarget _ rfl with ⟨hlow, hhigh⟩
        constructor
        · intro hlt
          rw [hst, hlow hlt]
          omega
        · intro hge
          rcases hhigh hge with ⟨h1, h2⟩
          rw [hst]
          unfold MIN_QUESTION_COUNT MAX_QUESTION_COUNT at *
          omega

/-- Witness for c1_session_size at a concrete store: the sample topic
has two questions, so a created session totals exactly 2. -/
theorem c1_session_size_witness :
    (count_questions sampleDb.questions 1 = 0 →
        start_quiz_for_topic sampleDb 99 1 0 id 7 = .noContent) ∧
    (0 < count_questions sampleDb.questions 1 →
        ∃ s qs, start_quiz_for_topic sampleDb 99 1 0 id 7 = .started s qs) ∧
    (∀ s qs, start_quiz_for_topic sampleDb 99 1 0 id 7 = .started s qs →
        (count_questions sampleDb.questions 1 < MIN_QUESTION_COUNT →
            s.total_questions = count_questions sampleDb.questions 1) ∧
        (MIN_QUESTION_COUNT ≤ count_questions sampleDb.questions 1 →
            MIN_QUESTION_COUNT ≤ s.total_questions ∧
            s.total_questions
              ≤ min MAX_QUESTION_COUNT (count_questions sampleDb.questions 1))) :=
  c1_session_size sampleDb 99 1 0 7 id (fun l => List.Perm.refl l)

/-- C2: the remediation aggregation reports, per topic of the session's
answered questions, the topic's title and level together with the exact
count of that session's answer rows satisfying the needs-review
predicate (is_correct = false, or is_correct null with ai_score null or
below 3); every such topic is reported, and the output is ordered by
count descending. -/
theorem c2_remediation_aggregation (db : Db) (sid : Nat) :
    (∀ e ∈ answers_by_topic_stats db sid,
        ∃ t ∈ review_topic_rows db sid,
          e.1 = t.title ∧ e.2.1 = t.level ∧
          e.2.2 = review_answer_count db sid t.id) ∧
    (∀ t ∈ review_topic_rows db sid,
        ∃ e ∈ answers_by_topic_stats db sid,
          e.2.2 = review_answer_count db sid t.id) ∧
    (answers_by_topic_stats db sid).Pairwise (fun x y => y.2.2 ≤ x.2.2) := by
  refine ⟨?_, ?_, ?_⟩
  · intro e he
    unfold answers_by_topic_stats at he
    rw [mem_sortBy] at he
    obtain ⟨t, ht, rfl⟩ := group_counts_sound _ e he
    exact ⟨t, ht, rfl, rfl, review_count_eq db sid t.id⟩
  · intro t ht
    obtain ⟨e, he, hcnt⟩ := group_counts_complete _ t ht
    refine ⟨e, ?_, ?_⟩
    · unfold answers_by_topic_stats
      rw [mem_sortBy]
      exact he
    · rw [hcnt, review_count_eq]
  · have htrans : ∀ a b c : String × String × Nat,
        countDescLe a b = true → countDescLe b c = true →
        countDescLe a c = true := by
      intro a b c hab hbc
      unfold countDescLe at *
      simp only [decide_eq_true_eq] at *
      omega
    have htot : ∀ a b : String × String × Nat,
        countDescLe a b = true ∨ countDescLe b a = true := by
      intro a b
      unfold countDescLe
      simp only [decide_eq_true_eq]
      omega
    have hp := pairwise_sortBy countDescLe htrans htot
      (group_counts (review_topic_rows db sid))
    unfold answers_by_topic_stats
    refine hp.imp ?_
    intro a b hab
    simpa [countDescLe] using hab

/-- C10: every question the batch query returns belongs to the single
requested topic; consequently, whenever all of a session's answers
reference questions of one topic tid — as holds for any core-created
session, whose batch is fetched with exactly one topic id — the
remediation aggregation returns at most one (topic, level) group. -/
theorem c10_single_topic_stats (db : Db) (sid tid limit : Nat)
    (shuffle : List Question → List Question)
    (hsh : ∀ l, (shuffle l).Perm l)
    (hanswers : ∀ a ∈ db.answers, a.session_id = sid →
        ∀ q ∈ db.questions, q.id = a.question_id → q.topic_id = tid) :
    (∀ q ∈ pick_questions db.questions tid limit shuffle,
        q.topic_id = tid) ∧
    (answers_by_topic_stats db sid).length ≤ 1 := by
  constructor
  · intro q hq
    unfold pick_questions at hq
    have hq2 := (hsh _).mem_iff.mp (List.mem_of_mem_take hq)
    have hfq := (List.mem_filter.mp hq2).2
    simpa using hfq
  · have hrows : ∀ t ∈ review_topic_rows db sid, t.id = tid := by
      intro t ht
      unfold review_topic_rows at ht
      obtain ⟨a, ha, hat⟩ := List.mem_filterMap.mp ht
      have hmem := List.mem_filter.mp ha
      have hprops := hmem.2
      simp only [Bool.and_eq_true, beq_iff_eq] at hprops
      unfold answer_topic at hat
      obtain ⟨q, hq, htq⟩ := Option.bind_eq_some.mp hat
      unfold find_question at hq
      unfold find_topic at htq
      have hqmem : q ∈ db.questions := List.mem_of_find?_eq_some hq
      have hqid : q.id = a.question_id := by
        have := List.find?_some hq
        simpa using this
      have htopic : q.topic_id = tid :=
        hanswers a hmem.1 hprops.1 q hqmem hqid
      have htid : t.id = q.topic_id := by
        have := List.find?_some htq
        simpa using this
      omega
    unfold answers_by_topic_stats
    rw [length_sortBy]
    exact group_counts_length_le_one _ tid hrows

/-- Witness for c10_single_topic_stats on the sample store, whose
session 5 only answers questions of topic 1. -/
theorem c10_single_topic_stats_witness :
    (∀ q ∈ pick_questions sampleDb.questions 1 3 id, q.topic_id = 1) ∧
    (answers_by_topic_stats sampleDb 5).length ≤ 1 :=
  c10_single_topic_stats sampleDb 5 1 3 id (fun l => List.Perm.refl l)
    (by decide)

theorem mcq_turn_cases (st : FlowState) (q : Question) (c : Int) :
    (mcq_turn st q c).1 = st ∨
    ((mcq_turn st q c).1.questions = st.questions ∧
     (mcq_turn st q c).1.idx = st.idx + 1 ∧
     (mcq_turn st q c).1.correct ≤ st.correct + 1) := by
  unfold mcq_turn
  cases h : handle_mcq_answer st q c with
  | none => exact Or.inl rfl
  | some rg =>
    obtain ⟨row, gained⟩ := rg
    right
    refine ⟨rfl, rfl, ?_⟩
    unfold advance_after_answer
    dsimp
    split <;> omega

theorem open_turn_cases (st : FlowState) (q : Question) (ans : String)
    (g : GradeOutcome) :
    (open_turn st q ans g).1.questions = st.questions ∧
    (open_turn st q ans g).1.idx = st.idx + 1 ∧
    (open_turn st q ans g).1.correct ≤ st.correct + 1 := by
  cases g with
  | ok score comment =>
    refine ⟨rfl, rfl, ?_⟩
    unfold open_turn advance_after_answer
    dsimp
    split <;> omega
  | failure => exact ⟨rfl, rfl, Nat.le_succ _⟩

theorem answering_step_cases (st : FlowState) (ev : AnswerEvent) :
    (answering_step st ev).1 = st ∨
    (st.idx < st.questions.length ∧
     (answering_step st ev).1.questions = st.questions ∧
     (answering_step st ev).1.idx = st.idx + 1 ∧
     (answering_step st ev).1.correct ≤ st.correct + 1) := by
  cases ev with
  | callback qid c =>
    rw [show answering_step st (.callback qid c)
          = handle_answer_callback st qid c from rfl]
    unfold handle_answer_callback
    by_cases h : st.idx < st.questions.length
    · rw [dif_pos h]
      dsimp only
      by_cases hne : (st.questions.get ⟨st.idx, h⟩).id ≠ qid
      · rw [if_pos hne]
        exact Or.inl rfl
      · rw [if_neg hne]
        rcases mcq_turn_cases st (st.questions.get ⟨st.idx, h⟩) c with
          h1 | ⟨h2, h3, h4⟩
        · exact Or.inl h1
        · exact Or.inr ⟨h, h2, h3, h4⟩
    · rw [dif_neg h]
      exact Or.inl rfl
  | text parsed raw g =>
    rw [show answering_step st (.text parsed raw g)
          = flow_text_turn st parsed raw g from rfl]
    unfold flow_text_turn
    by_cases h : st.idx < st.questions.length
    · rw [dif_pos h]
      dsimp only
      by_cases hmcq : ((st.questions.get ⟨st.idx, h⟩).qtype == "mcq") = true
      · rw [if_pos hmcq]
        cases parsed with
        | none => exact Or.inl rfl
        | some c =>
          rcases mcq_turn_cases st (st.questions.get ⟨st.idx, h⟩) c with
            h1 | ⟨h2, h3, h4⟩
          · exact Or.inl h1
          · exact Or.inr ⟨h, h2, h3, h4⟩
      · rw [if_neg hmcq]
        by_cases hopen : ((st.questions.get ⟨st.idx, h⟩).qtype == "open") = true
        · rw [if_pos hopen]
          obtain ⟨h2, h3, h4⟩ :=
            open_turn_cases st (st.questions.get ⟨st.idx, h⟩) raw g
          exact Or.inr ⟨h, h2, h3, h4⟩
        · rw [if_neg hopen]
          exact Or.inr ⟨h, rfl, rfl, Nat.le_succ _⟩
    · rw [dif_neg h]
      exact Or.inl rfl

/-- C9: for every state reachable in the answering stage from a freshly
created session (idx = 0, correct = 0, total_questions fixed to the
batch length), the progress values that each turn persists satisfy
idx ≤ total_questions and correct_count ≤ idx (0 ≤ idx holds because idx
is a natural number). -/
theorem c9_session_progress_invariant (sid uid tid : Nat)
    (qs : List Question) (st : FlowState)
    (h : Relation.ReflTransGen QuizStep (initial_flow_state sid qs) st) :
    st.questions = qs ∧
    st.idx ≤ (start_session sid uid tid qs.length "mixed").total_questions ∧
    st.correct ≤ st.idx := by
  induction h with
  | refl => exact ⟨rfl, Nat.zero_le _, Nat.le_refl 0⟩
  | tail hab hbc ih =>
    rename_i b c
    obtain ⟨ev, rfl⟩ := hbc
    rcases answering_step_cases b ev with heq | ⟨hlt, hq, hidx, hc⟩
    · rw [heq]
      exact ih
    · obtain ⟨ihq, ihidx, ihc⟩ := ih
      have hql : b.idx < qs.length := ihq ▸ hlt
      refine ⟨by rw [hq, ihq], ?_, ?_⟩
      · show (answering_step b ev).1.idx ≤ qs.length
        omega
      · omega

/-- Witness for c9_session_progress_invariant at the freshly created
sample session (the reflexive reachability step). -/
theorem c9_session_progress_invariant_witness :
    (initial_flow_state 5 [sampleMcq, sampleOpen]).questions
        = [sampleMcq, sampleOpen] ∧
    (initial_flow_state 5 [sampleMcq, sampleOpen]).idx
        ≤ (start_session 5 99 1 [sampleMcq, sampleOpen].length
            "mixed").total_questions ∧
    (initial_flow_state 5 [sampleMcq, sampleOpen]).correct
        ≤ (initial_flow_state 5 [sampleMcq, sampleOpen]).idx :=
  c9_session_progress_invariant 5 99 1 [sampleMcq, sampleOpen]
    (initial_flow_state 5 [sampleMcq, sampleOpen])
    Relation.ReflTransGen.refl

end InterviewHelper
